import Mathlib

/-!
# Verification of `toolchest.pyomoio`

A shallow embedding of `src/toolchest/pyomoio.py` (functions `get_entity`,
`get_entities`, `list_entities`, `_get_onset_names`) together with proofs of
the specification claims.

Modelling conventions:
* Pyomo model entities are finite trees (`PyoSet`, `Entity`); the external
  Pyomo collaborator is modelled per the spec's data model: a set has a name,
  a dimensionality `dimen`, an optional parent `domain`, a tuple of component
  sets `set_tuple`, a `virtual` flag and its member elements `value`.
* pandas cells are the inductive `Cell`; numeric values are `Int` (the claims
  never depend on float behaviour, only on value preservation).
* Fallible Python code (raised exceptions) is `Except String`.
-/

/-- A value held in one cell of a pandas table: a string, a number, Python's
`None`, a list of strings (the Domain column of `list_entities`), or a tuple
of strings (a multi-dimensional set element stored in a single cell). -/
inductive Cell where
  | str (s : String)
  | num (n : Int)
  | null
  | strs (ls : List String)
  | tup (ls : List String)
deriving DecidableEq, Repr

/-- A Pyomo set object, as used by `pyomoio`: `name`, dimensionality `dimen`,
optional parent `domain`, component sets `set_tuple` (for cross-product sets),
the `virtual` flag (used by `list_entities`), and its elements `value`
(used by `get_entity`). -/
inductive PyoSet where
  | mk (name : String) (dimen : Nat) (domain : Option PyoSet)
       (set_tuple : List PyoSet) (virtual : Bool) (value : List Cell)

def PyoSet.name : PyoSet → String
  | .mk n _ _ _ _ _ => n

def PyoSet.dimen : PyoSet → Nat
  | .mk _ d _ _ _ _ => d

def PyoSet.domain : PyoSet → Option PyoSet
  | .mk _ _ dom _ _ _ => dom

def PyoSet.set_tuple : PyoSet → List PyoSet
  | .mk _ _ _ st _ _ => st

def PyoSet.virtual : PyoSet → Bool
  | .mk _ _ _ _ v _ => v

def PyoSet.value : PyoSet → List Cell
  | .mk _ _ _ _ _ el => el

mutual
/-- The `pyomo.Set` branch of `_get_onset_names` (pyomoio.py lines 199-219):
for `dimen > 1` recurse over the component sets of `domain.set_tuple` (if a
domain is present) or of `set_tuple`; for `dimen == 1` the single label is the
domain's name (if restricted) or the set's own name; otherwise no labels. -/
def setOnsetNames : PyoSet → List String
  | .mk nm dimen dom st _ _ =>
    if 1 < dimen then
      match dom with
      | some (.mk _ _ _ dst _ _) => setOnsetNamesList dst
      | none => setOnsetNamesList st
    else if dimen = 1 then
      match dom with
      | some d => [d.name]
      | none => [nm]
    else []

/-- `labels.extend(_get_onset_names(domain_set))` iterated over a list of
component sets. -/
def setOnsetNamesList : List PyoSet → List String
  | [] => []
  | s :: ss => setOnsetNames s ++ setOnsetNamesList ss
end

/-- A member entity of a model: a set, or an (indexed) parameter, variable,
constraint or objective carrying its `doc` string, its dimensionality
`dim()`, its index set `_index` and its `(index, value)` items (for
variables/constraints/objectives the `.value` of each member is already
taken, since the claims never inspect the symbolic objects), or an attribute
of unrecognized type (`unknown`). -/
inductive Entity where
  | set (s : PyoSet) (doc : Option String)
  | param (doc : Option String) (dim : Nat) (index_set : Option PyoSet)
          (items : List (List Cell × Int))
  | var (doc : Option String) (dim : Nat) (index_set : Option PyoSet)
        (items : List (List Cell × Int))
  | con (doc : Option String) (dim : Nat) (index_set : Option PyoSet)
        (items : List (List Cell × Int))
  | obj (doc : Option String) (dim : Nat) (index_set : Option PyoSet)
        (items : List (List Cell × Int))
  | unknown

def Entity.doc : Entity → Option String
  | .set _ d => d
  | .param d _ _ _ => d
  | .var d _ _ _ => d
  | .con d _ _ _ => d
  | .obj d _ _ _ => d
  | .unknown => none

/-- The dimensionality of an entity: `dimen` for a set, `dim()` for the
indexed entity kinds. -/
def entityDim : Entity → Nat
  | .set s _ => s.dimen
  | .param _ d _ _ => d
  | .var _ d _ _ => d
  | .con _ d _ _ => d
  | .obj _ d _ _ => d
  | .unknown => 0

/-- `_get_onset_names` (pyomoio.py lines 176-232).  For a `Set` it runs the
recursive domain walk; for `Param`/`Var`/`Constraint`/`Objective` with
`dim() > 0` and a truthy `_index` it recurses into the index set; any other
object raises `ValueError("Unknown entity type!")`. -/
def _get_onset_names : Entity → Except String (List String)
  | .set s _ => .ok (setOnsetNames s)
  | .param _ dim idx _ =>
    if 0 < dim then
      match idx with
      | some t => .ok (setOnsetNames t)
      | none => .ok []
    else .ok []
  | .var _ dim idx _ =>
    if 0 < dim then
      match idx with
      | some t => .ok (setOnsetNames t)
      | none => .ok []
    else .ok []
  | .con _ dim idx _ =>
    if 0 < dim then
      match idx with
      | some t => .ok (setOnsetNames t)
      | none => .ok []
    else .ok []
  | .obj _ dim idx _ =>
    if 0 < dim then
      match idx with
      | some t => .ok (setOnsetNames t)
      | none => .ok []
    else .ok []
  | .unknown => .error "Unknown entity type!"

/-- Sum of the dimensionalities of a list of component sets. -/
def sumDimens : List PyoSet → Nat
  | [] => 0
  | s :: ss => s.dimen + sumDimens ss

mutual
/-- Well-formedness of a Pyomo set, capturing the Pyomo invariant that a
cross-product set's dimensionality is the sum of its components': whenever
`dimen > 1`, the component sets that `_get_onset_names` walks (those of the
domain when present, else the set's own) are themselves well-formed and
their dimensionalities sum to `dimen`. -/
def wfSet : PyoSet → Bool
  | .mk _ dimen dom st _ _ =>
    if 1 < dimen then
      match dom with
      | some (.mk _ _ _ dst _ _) => wfSetList dst && (sumDimens dst == dimen)
      | none => wfSetList st && (sumDimens st == dimen)
    else true

def wfSetList : List PyoSet → Bool
  | [] => true
  | s :: ss => wfSet s && wfSetList ss
end

/-- Well-formedness of an entity: its index structure is consistent with its
dimensionality.  For a set this is `wfSet`; for the indexed kinds, a positive
`dim()` requires a well-formed index set of that dimensionality, and every
item's index tuple has width `dim()` (width 1 for a scalar entity, whose
Pyomo index is the singleton `{None}`).  Unrecognized attributes are not
well-formed model entities. -/
def wfEntity : Entity → Bool
  | .set s _ => wfSet s
  | .param _ dim idx items =>
    (if 0 < dim then
      match idx with
      | some t => wfSet t && (t.dimen == dim)
      | none => false
    else true) && items.all (fun v => v.1.length == max dim 1)
  | .var _ dim idx items =>
    (if 0 < dim then
      match idx with
      | some t => wfSet t && (t.dimen == dim)
      | none => false
    else true) && items.all (fun v => v.1.length == max dim 1)
  | .con _ dim idx items =>
    (if 0 < dim then
      match idx with
      | some t => wfSet t && (t.dimen == dim)
      | none => false
    else true) && items.all (fun v => v.1.length == max dim 1)
  | .obj _ dim idx items =>
    (if 0 < dim then
      match idx with
      | some t => wfSet t && (t.dimen == dim)
      | none => false
    else true) && items.all (fun v => v.1.length == max dim 1)
  | .unknown => false

/-- One step of the duplicate-label scan of `get_entity` (pyomoio.py lines
65-67): the label at position `k` is compared against the already-processed
(and possibly already-renamed) labels `labels[:k]`; on a hit an underscore is
appended to position `k`. -/
def dedupeStep (acc : List String) (label : String) : List String :=
  if label ∈ acc then acc ++ [label ++ "_"] else acc ++ [label]

/-- The in-place duplicate-label scan of `get_entity` (pyomoio.py lines
63-67): `['sit', 'sit', 'com']` becomes `['sit', 'sit_', 'com']`. -/
def dedupeLabels (labels : List String) : List String :=
  labels.foldl dedupeStep []

/-- A pandas `DataFrame` with its default integer row index: column labels
and rows of cells. -/
structure DataFrame where
  columns : List String
  rows : List (List Cell)
deriving DecidableEq, Repr

/-- A pandas `Series` obtained from an indexed frame: the names of the index
levels, the series' own name, and `(index tuple, value)` entries. -/
structure PSeries where
  indexNames : List String
  sname : String
  entries : List (List Cell × Cell)
deriving DecidableEq, Repr

/-- A pandas `DataFrame` carrying a (possibly multi-level) index, as built by
`set_index` / `to_frame` / `join`. -/
structure IndexedFrame where
  indexNames : List String
  columns : List String
  rows : List (List Cell × List Cell)
deriving DecidableEq, Repr

/-- The pandas objects that `pyomoio` functions return: a plain frame, an
indexed frame, or a series.  (`get_entity` returns a `Series` for a nonempty
entity but the raw empty `DataFrame` for an empty one.) -/
inductive PandasObj where
  | df (d : DataFrame)
  | idf (f : IndexedFrame)
  | series (s : PSeries)
deriving DecidableEq, Repr

/-- `pd.DataFrame(list_of_tuples)`: default column labels `"0"`, `"1"`, …
(an empty data list yields a frame with no columns). -/
def DataFrame.fromRows (rows : List (List Cell)) : DataFrame :=
  { columns :=
      match rows with
      | [] => []
      | r :: _ => (List.range r.length).map toString,
    rows := rows }

/-- `results.columns = cols`: pandas raises `ValueError` when the number of
new labels does not match the frame's width. -/
def DataFrame.setColumns (df : DataFrame) (cols : List String) :
    Except String DataFrame :=
  if cols.length = (df.rows.headD []).length then
    .ok { df with columns := cols }
  else
    .error "ValueError: Length mismatch"

/-- `results.set_index(labels)` followed by `results[name]`: move the columns
named by `labels` into the index and select the column `name` among the
remaining ones.  pandas raises `KeyError` when a requested key matches no
column label and `ValueError` when it matches a duplicated one (e.g. the
`['plants', 'plants']` columns arising from an unrestricted 1-dimensional
set, whose value column title equals its index label); both are errors
here.  The row-cell fallbacks (`Cell.null`) are unreachable for the frames
`get_entity` builds, whose row widths match the column count (checked by
`setColumns`). -/
def DataFrame.setIndexSelect (df : DataFrame) (labels : List String)
    (vname : String) : Except String PSeries :=
  let ipos := labels.map (fun l => df.columns.findIdx (· == l))
  let restPos := (List.range df.columns.length).filter (fun i => !ipos.contains i)
  let restCols := restPos.filterMap (fun i => df.columns.get? i)
  let vpos := restPos.getD (restCols.findIdx (· == vname)) df.columns.length
  if !labels.all (fun l => df.columns.contains l) then
    .error "KeyError"
  else if !labels.all (fun l => df.columns.count l == 1) then
    .error "ValueError: The column label is not unique"
  else if !restCols.contains vname then
    .error "KeyError"
  else
    .ok { indexNames := labels,
          sname := vname,
          entries := df.rows.map (fun r =>
            (ipos.map (fun i => r.getD i Cell.null), r.getD vpos Cell.null)) }

/-- `instance.__getattribute__(name)`: attribute lookup on the model, raising
`AttributeError` for a missing name. -/
def getattrE (inst : List (String × Entity)) (name : String) :
    Except String Entity :=
  match inst.lookup name with
  | some e => .ok e
  | none => .error "AttributeError"

/-- `get_entity` (pyomoio.py lines 13-77).  Looks up the entity, derives its
onset labels, builds the raw value frame (elements paired with `1` for a
set; index tuples concatenated with the value for the other kinds), renames
an empty label list to the entity name (appending `'_'` to the column title),
deduplicates labels, and — only when the frame is nonempty — assigns column
labels, sets the index and converts to a `Series`. -/
def get_entity (inst : List (String × Entity)) (name : String) :
    Except String PandasObj := do
  -- retrieve entity, its type and its onset names
  let entity ← getattrE inst name
  let labels0 ← _get_onset_names entity
  -- extract values
  let (rows, labels, name) :=
    match entity with
    | .set s _ =>
      let rows := s.value.map (fun v => [v, Cell.num 1])
      -- for unconstrained sets, make index equal to entity name and append
      -- underscore to name (the later column title)
      if labels0 = [] then (rows, [name], name ++ "_")
      else (rows, labels0, name)
    | .param _ dim _ items =>
      if 1 < dim then
        (items.map (fun v => v.1 ++ [Cell.num v.2]), labels0, name)
      else
        (items.map (fun v => v.1 ++ [Cell.num v.2]), labels0, name)
    | .var _ dim _ items =>
      if 1 < dim then
        (items.map (fun v => v.1 ++ [Cell.num v.2]), labels0, name)
      else
        (items.map (fun v => v.1 ++ [Cell.num v.2]), labels0, name)
    | .con _ dim _ items =>
      if 1 < dim then
        (items.map (fun v => v.1 ++ [Cell.num v.2]), labels0, name)
      else
        (items.map (fun v => v.1 ++ [Cell.num v.2]), labels0, name)
    | .obj _ dim _ items =>
      if 1 < dim then
        (items.map (fun v => v.1 ++ [Cell.num v.2]), labels0, name)
      else
        (items.map (fun v => v.1 ++ [Cell.num v.2]), labels0, name)
    | .unknown => ([], labels0, name)  -- dead: `_get_onset_names` raised
  -- check for duplicate onset names
  let labels := dedupeLabels labels
  let results := DataFrame.fromRows rows
  if !results.rows.isEmpty then
    let results ← results.setColumns (labels ++ [name])
    let results ← results.setIndexSelect labels name
    return PandasObj.series results
  else
    return PandasObj.df results

/-- The `filter_by_type` helper of `list_entities` (pyomoio.py lines
145-157): type dispatch on the five recognized kind tags (`'set'` excludes
virtual sets), raising `ValueError` on any other tag. -/
def filter_by_type (entity : Entity) (entity_type : String) :
    Except String Bool :=
  if entity_type = "set" then
    .ok (match entity with
         | .set s _ => !s.virtual
         | _ => false)
  else if entity_type = "par" then
    .ok (match entity with
         | .param _ _ _ _ => true
         | _ => false)
  else if entity_type = "var" then
    .ok (match entity with
         | .var _ _ _ _ => true
         | _ => false)
  else if entity_type = "con" then
    .ok (match entity with
         | .con _ _ _ _ => true
         | _ => false)
  else if entity_type = "obj" then
    .ok (match entity with
         | .obj _ _ _ _ => true
         | _ => false)
  else
    .error ("Unknown entity_type '" ++ entity_type ++ "'")

/-- The generator inside `list_entities` (pyomoio.py lines 160-164): for each
model attribute in order, test `filter_by_type` (whose `ValueError`
propagates lazily: it is never raised when the model has no attributes) and
keep `(name, doc, _get_onset_names(entity))` for the matches. -/
def listRows (entity_type : String) :
    List (String × Entity) →
    Except String (List (String × Option String × List String))
  | [] => .ok []
  | (n, e) :: rest => do
    let b ← filter_by_type e entity_type
    if b then
      let ls ← _get_onset_names e
      let r ← listRows entity_type rest
      pure ((n, e.doc, ls) :: r)
    else
      listRows entity_type rest

/-- Insert a row into a name-sorted list of rows (stable: an equal key goes
in front of nothing it preceded). -/
def insertRow (x : String × Option String × List String) :
    List (String × Option String × List String) →
    List (String × Option String × List String)
  | [] => [x]
  | y :: ys => if x.1 ≤ y.1 then x :: y :: ys else y :: insertRow x ys

/-- `sorted(...)` over the kept `(name, doc, labels)` tuples (stable
insertion sort).  Python sorts the tuples lexicographically; attribute names
are unique in a model's namespace, so sorting by name alone is the same
ordering. -/
def sortRows (rows : List (String × Option String × List String)) :
    List (String × Option String × List String) :=
  rows.foldr insertRow []

/-- A Python `doc` value as a pandas cell (`None` becomes a null cell). -/
def optCell : Option String → Cell
  | some s => .str s
  | none => .null

/-- `list_entities` (pyomoio.py lines 118-173): filter the model's attributes
by kind tag, sort, and either wrap the tuples in a frame indexed by `Name`
(columns `Description`, `Domain`) or return the raw empty `DataFrame` when
nothing matched. -/
def list_entities (inst : List (String × Entity)) (entity_type : String) :
    Except String PandasObj := do
  let entities ← listRows entity_type inst
  let entities := sortRows entities
  if entities ≠ [] then
    return PandasObj.idf
      { indexNames := ["Name"],
        columns := ["Description", "Domain"],
        rows := entities.map (fun r =>
          ([Cell.str r.1], [optCell r.2.1, Cell.strs r.2.2])) }
  else
    return PandasObj.df { columns := [], rows := [] }

/-- `Series.to_frame()`: a one-column indexed frame. -/
def PSeries.to_frame (s : PSeries) : IndexedFrame :=
  { indexNames := s.indexNames,
    columns := [s.sname],
    rows := s.entries.map (fun e => (e.1, [e.2])) }

/-- The body of the `else` branch of `get_entities` (pyomoio.py lines
108-113): remember the index level names, perform the (outer) join — the
join itself is the external pandas collaborator, passed as `joinFn` — and, if
the join changed the index level names, restore the previous ones. -/
def join_step (joinFn : IndexedFrame → PSeries → IndexedFrame)
    (df : IndexedFrame) (other : PSeries) : IndexedFrame :=
  let index_names_before := df.indexNames
  let joined := joinFn df other
  if index_names_before ≠ joined.indexNames then
    { joined with indexNames := index_names_before }
  else
    joined

/-- A concrete model of `df.join(other, how='outer')`: keep every left row,
append the right-hand rows with unmatched keys, fill missing cells with
nulls; the calling frame's index level names are kept. -/
def pandasOuterJoin (df : IndexedFrame) (s : PSeries) : IndexedFrame :=
  let leftKeys := df.rows.map Prod.fst
  let allKeys := leftKeys ++ (s.entries.map Prod.fst).filter (fun k => !leftKeys.contains k)
  let leftRow := fun k => ((df.rows.find? (fun r => r.1 == k)).map Prod.snd).getD
                   (List.replicate df.columns.length Cell.null)
  let rightVal := fun k => ((s.entries.find? (fun e => e.1 == k)).map Prod.snd).getD Cell.null
  { indexNames := df.indexNames,
    columns := df.columns ++ [s.sname],
    rows := allKeys.map (fun k => (k, leftRow k ++ [rightVal k])) }

/-- The accumulation loop of `get_entities` (pyomoio.py lines 101-115): the
running frame starts as the empty `pd.DataFrame()`; the first extracted
entity is installed via `to_frame()`, later ones are joined in via
`join_step`.  (`to_frame` / `join` on a non-`Series` operand — which arises
only when an extracted entity was empty — raises in pandas and is an error
here.) -/
def get_entitiesGo (joinFn : IndexedFrame → PSeries → IndexedFrame)
    (inst : List (String × Entity)) :
    List String → PandasObj → Except String PandasObj
  | [], df => .ok df
  | name :: rest, df => do
    let other ← get_entity inst name
    let dfIsEmpty :=
      match df with
      | .df d => d.rows.isEmpty
      | .idf f => f.rows.isEmpty
      | .series s => s.entries.isEmpty
    if dfIsEmpty then
      match other with
      | .series s => get_entitiesGo joinFn inst rest (.idf s.to_frame)
      | _ => .error "AttributeError: to_frame"
    else
      match df, other with
      | .idf f, .series s =>
        get_entitiesGo joinFn inst rest (.idf (join_step joinFn f s))
      | _, _ => .error "TypeError: join"

/-- `get_entities` (pyomoio.py lines 80-115), parameterized by the pandas
join collaborator. -/
def get_entitiesW (joinFn : IndexedFrame → PSeries → IndexedFrame)
    (inst : List (String × Entity)) (names : List String) :
    Except String PandasObj :=
  get_entitiesGo joinFn inst names (.df { columns := [], rows := [] })

/-- `get_entities` with the concrete outer-join model. -/
def get_entities (inst : List (String × Entity)) (names : List String) :
    Except String PandasObj :=
  get_entitiesW pandasOuterJoin inst names

/-- Fuel-instrumented mirror of the recursion of `_get_onset_names` over set
domains (each recursive call of the Python function consumes one unit of
fuel; `none` means the fuel ran out before the recursion bottomed out).
The argument is either one set or a list of component sets still to walk. -/
def onsetF : Nat → PyoSet ⊕ List PyoSet → Option (List String)
  | 0, _ => none
  | fuel + 1, .inl (.mk nm dimen dom st _ _) =>
    if 1 < dimen then
      match dom with
      | some (.mk _ _ _ dst _ _) => onsetF fuel (.inr dst)
      | none => onsetF fuel (.inr st)
    else if dimen = 1 then
      match dom with
      | some d => some [d.name]
      | none => some [nm]
    else some []
  | _ + 1, .inr [] => some []
  | fuel + 1, .inr (s :: ss) =>
    match onsetF fuel (.inl s), onsetF fuel (.inr ss) with
    | some a, some b => some (a ++ b)
    | _, _ => none

/-- Fuel-instrumented mirror of `_get_onset_names` on entities. -/
def getOnsetNamesF (fuel : Nat) (e : Entity) :
    Option (Except String (List String)) :=
  match fuel with
  | 0 => none
  | fuel + 1 =>
    match e with
    | .set s _ => (onsetF fuel (.inl s)).map .ok
    | .param _ dim idx _ =>
      if 0 < dim then
        match idx with
        | some t => (onsetF fuel (.inl t)).map .ok
        | none => some (.ok [])
      else some (.ok [])
    | .var _ dim idx _ =>
      if 0 < dim then
        match idx with
        | some t => (onsetF fuel (.inl t)).map .ok
        | none => some (.ok [])
      else some (.ok [])
    | .con _ dim idx _ =>
      if 0 < dim then
        match idx with
        | some t => (onsetF fuel (.inl t)).map .ok
        | none => some (.ok [])
      else some (.ok [])
    | .obj _ dim idx _ =>
      if 0 < dim then
        match idx with
        | some t => (onsetF fuel (.inl t)).map .ok
        | none => some (.ok [])
      else some (.ok [])
    | .unknown => some (.error "Unknown entity type!")

/-- Whether an entity has zero `(index, value)` elements. -/
def entityIsEmpty : Entity → Bool
  | .set s _ => s.value.isEmpty
  | .param _ _ _ items => items.isEmpty
  | .var _ _ _ items => items.isEmpty
  | .con _ _ _ items => items.isEmpty
  | .obj _ _ _ items => items.isEmpty
  | .unknown => true

/-- Whether the width of the raw value frame `get_entity` builds matches the
derived labels plus the entity-name column, so that the column assignment
succeeds: sets must be at most 1-dimensional (a multi-dimensional set's
elements occupy a single tuple cell, but contribute one label per dimension)
and the indexed kinds must actually be indexed (`dim() ≥ 1`; a scalar's
`(None, value)` pair is two columns against one label). -/
def entityFits : Entity → Bool
  | .set s _ => s.dimen ≤ 1
  | .param _ dim _ _ => 0 < dim
  | .var _ dim _ _ => 0 < dim
  | .con _ dim _ _ => 0 < dim
  | .obj _ dim _ _ => 0 < dim
  | .unknown => false

/-- The numeric content of a cell (`0` for non-numeric cells). -/
def cellInt : Cell → Int
  | .num n => n
  | _ => 0

/-- `series.sum()`: the sum of the values of a series. -/
def seriesValsSum (s : PSeries) : Int :=
  (s.entries.map (fun e => cellInt e.2)).sum

/-- The sum of the raw `(index, value)` pairs of an entity's items. -/
def itemsSum (items : List (List Cell × Int)) : Int :=
  (items.map Prod.snd).sum

/-- The labels `_get_onset_names` derives for an indexed entity with
dimensionality `dim` and index set `idx` (pyomoio.py lines 223-227). -/
def indexLabels (dim : Nat) (idx : Option PyoSet) : List String :=
  if 0 < dim then
    match idx with
    | some t => setOnsetNames t
    | none => []
  else []

/-- Whether the final column labelling of `get_entity` is collision-free for
entity `e` retrieved under attribute name `name`: the deduplicated index
labels are pairwise distinct and none of them equals the value-column title
(`name ++ "_"` for a label-less set, `name` otherwise).  When this fails —
e.g. for an unrestricted 1-dimensional set, whose single label is its own
name — `set_index` meets a duplicated column label and pandas raises. -/
def columnsOk (name : String) : Entity → Bool
  | .set s _ =>
    if setOnsetNames s = [] then
      decide (dedupeLabels [name]).Nodup
        && !((dedupeLabels [name]).contains (name ++ "_"))
    else
      decide (dedupeLabels (setOnsetNames s)).Nodup
        && !((dedupeLabels (setOnsetNames s)).contains name)
  | .param _ dim idx _ =>
    decide (dedupeLabels (indexLabels dim idx)).Nodup
      && !((dedupeLabels (indexLabels dim idx)).contains name)
  | .var _ dim idx _ =>
    decide (dedupeLabels (indexLabels dim idx)).Nodup
      && !((dedupeLabels (indexLabels dim idx)).contains name)
  | .con _ dim idx _ =>
    decide (dedupeLabels (indexLabels dim idx)).Nodup
      && !((dedupeLabels (indexLabels dim idx)).contains name)
  | .obj _ dim idx _ =>
    decide (dedupeLabels (indexLabels dim idx)).Nodup
      && !((dedupeLabels (indexLabels dim idx)).contains name)
  | .unknown => false

/-- Sample 1-dimensional unrestricted set (the `plants` set of the test
model). -/
def plantsSet : PyoSet :=
  .mk "plants" 1 none [] false [.str "Seattle", .str "San-Diego"]

/-- Sample 1-dimensional unrestricted set (the `markets` set of the test
model). -/
def marketsSet : PyoSet :=
  .mk "markets" 1 none [] false [.str "New-York", .str "Chicago", .str "Topeka"]

/-- Sample 2-dimensional cross-product index set `plants × markets`. -/
def pmSet : PyoSet :=
  .mk "pm" 2 none [plantsSet, marketsSet] false
    [.tup ["Seattle", "New-York"], .tup ["San-Diego", "New-York"]]

/-- Sample model instance mirroring the transport test fixture. -/
def transpInst : List (String × Entity) :=
  [("plants", .set plantsSet none),
   ("markets", .set marketsSet none),
   ("capacity", .param none 1 (some plantsSet)
      [([.str "Seattle"], 350), ([.str "San-Diego"], 600)]),
   ("demand", .param none 1 (some marketsSet)
      [([.str "New-York"], 325), ([.str "Chicago"], 300), ([.str "Topeka"], 275)]),
   ("distance", .param none 2 (some pmSet)
      [([.str "Seattle", .str "New-York"], 25), ([.str "San-Diego", .str "New-York"], 25)]),
   ("empty_par", .param none 1 (some marketsSet) []),
   ("note", .unknown)]


/-- Sample 1-dimensional restricted set: `com` within its superset
`com_all`. -/
def comSet : PyoSet :=
  .mk "com" 1 (some (.mk "com_all" 1 none [] false [])) [] false []

/-- Sample 3-dimensional set with a nested cross-product domain
(`(plants × markets) × com`). -/
def tripleSet : PyoSet :=
  .mk "triple" 3 none [pmSet, comSet] false []


/-- The frame produced by installing the extracted `capacity` series as the
first entity of `get_entities`. -/
def capacityFrame : IndexedFrame :=
  { indexNames := ["plants"], columns := ["capacity"],
    rows := [([.str "Seattle"], [.num 350]), ([.str "San-Diego"], [.num 600])] }

/-- The combined frame after joining the `demand` series into
`capacityFrame` (outer join: non-overlapping keys, null-filled cells). -/
def capDemandFrame : IndexedFrame :=
  { indexNames := ["plants"], columns := ["capacity", "demand"],
    rows := [([.str "Seattle"], [.num 350, .null]),
             ([.str "San-Diego"], [.num 600, .null]),
             ([.str "New-York"], [.null, .num 325]),
             ([.str "Chicago"], [.null, .num 300]),
             ([.str "Topeka"], [.null, .num 275])] }

/-! ## Helper lemmas -/

theorem setOnsetNamesList_length (l : List PyoSet)
    (IH : ∀ s ∈ l, wfSet s = true → (setOnsetNames s).length = s.dimen)
    (h : wfSetList l = true) :
    (setOnsetNamesList l).length = sumDimens l := by
  induction l with
  | nil => rfl
  | cons s ss ih =>
    rw [wfSetList, Bool.and_eq_true] at h
    rw [setOnsetNamesList, sumDimens, List.length_append,
      IH s (List.mem_cons_self s ss) h.1,
      ih (fun x hx hw => IH x (List.mem_cons_of_mem _ hx) hw) h.2]

theorem setOnsetNames_length_wf :
    ∀ s : PyoSet, wfSet s = true → (setOnsetNames s).length = s.dimen := by
  have main : ∀ n, ∀ s : PyoSet, sizeOf s ≤ n → wfSet s = true →
      (setOnsetNames s).length = s.dimen := by
    intro n
    induction n using Nat.strong_induction_on with
    | _ n IH =>
      intro s hsz hwf
      match s with
      | .mk nm dimen dom st v el =>
        by_cases h1 : 1 < dimen
        · match dom with
          | some (.mk dn dd ddom dst dv del) =>
            rw [setOnsetNames, if_pos h1] at *
            rw [wfSet, if_pos h1, Bool.and_eq_true, beq_iff_eq] at hwf
            show (setOnsetNamesList dst).length = PyoSet.dimen _
            rw [PyoSet.dimen, ← hwf.2]
            refine setOnsetNamesList_length dst (fun x hx hw => ?_) hwf.1
            have hx1 : sizeOf x < sizeOf dst := List.sizeOf_lt_of_mem hx
            have hx2 : sizeOf x <
                sizeOf (PyoSet.mk nm dimen
                  (some (PyoSet.mk dn dd ddom dst dv del)) st v el) := by
              simp only [PyoSet.mk.sizeOf_spec, Option.some.sizeOf_spec]
              omega
            exact IH (sizeOf x) (Nat.lt_of_lt_of_le hx2 hsz) x (Nat.le_refl _) hw
          | none =>
            rw [setOnsetNames, if_pos h1] at *
            rw [wfSet, if_pos h1, Bool.and_eq_true, beq_iff_eq] at hwf
            show (setOnsetNamesList st).length = PyoSet.dimen _
            rw [PyoSet.dimen, ← hwf.2]
            refine setOnsetNamesList_length st (fun x hx hw => ?_) hwf.1
            have hx1 : sizeOf x < sizeOf st := List.sizeOf_lt_of_mem hx
            have hx2 : sizeOf x < sizeOf (PyoSet.mk nm dimen none st v el) := by
              simp only [PyoSet.mk.sizeOf_spec]
              omega
            exact IH (sizeOf x) (Nat.lt_of_lt_of_le hx2 hsz) x (Nat.le_refl _) hw
        · by_cases h2 : dimen = 1
          · subst h2
            match dom with
            | some d => simp [setOnsetNames, PyoSet.dimen]
            | none => simp [setOnsetNames, PyoSet.dimen]
          · have hd0 : dimen = 0 := by omega
            subst hd0
            simp [setOnsetNames, PyoSet.dimen]
  exact fun s => main (sizeOf s) s (Nat.le_refl _)

/-! ## Claim theorems -/

/-- C1: for every well-formed model entity `E` (set, parameter, variable,
constraint or objective) with dimensionality `d`, the label-derivation
routine `_get_onset_names E` returns (without raising) a list of exactly
`d` label strings. -/
theorem c1_onset_label_count (e : Entity) (h : wfEntity e = true) :
    ∃ ls, _get_onset_names e = .ok ls ∧ ls.length = entityDim e := by
  match e with
  | .set s d =>
    exact ⟨setOnsetNames s, rfl, setOnsetNames_length_wf s h⟩
  | .param d dim idx items =>
    simp only [wfEntity, Bool.and_eq_true] at h
    by_cases hdim : 0 < dim
    · rw [if_pos hdim] at h
      match idx with
      | some t =>
        rw [Bool.and_eq_true, beq_iff_eq] at h
        refine ⟨setOnsetNames t, ?_, ?_⟩
        · simp [_get_onset_names, hdim]
        · rw [setOnsetNames_length_wf t h.1.1, h.1.2, entityDim]
    · refine ⟨[], ?_, ?_⟩
      · simp [_get_onset_names, hdim]
      · have hd0 : dim = 0 := by omega
        simp [entityDim, hd0]
  | .var d dim idx items =>
    simp only [wfEntity, Bool.and_eq_true] at h
    by_cases hdim : 0 < dim
    · rw [if_pos hdim] at h
      match idx with
      | some t =>
        rw [Bool.and_eq_true, beq_iff_eq] at h
        refine ⟨setOnsetNames t, ?_, ?_⟩
        · simp [_get_onset_names, hdim]
        · rw [setOnsetNames_length_wf t h.1.1, h.1.2, entityDim]
    · refine ⟨[], ?_, ?_⟩
      · simp [_get_onset_names, hdim]
      · have hd0 : dim = 0 := by omega
        simp [entityDim, hd0]
  | .con d dim idx items =>
    simp only [wfEntity, Bool.and_eq_true] at h
    by_cases hdim : 0 < dim
    · rw [if_pos hdim] at h
      match idx with
      | some t =>
        rw [Bool.and_eq_true, beq_iff_eq] at h
        refine ⟨setOnsetNames t, ?_, ?_⟩
        · simp [_get_onset_names, hdim]
        · rw [setOnsetNames_length_wf t h.1.1, h.1.2, entityDim]
    · refine ⟨[], ?_, ?_⟩
      · simp [_get_onset_names, hdim]
      · have hd0 : dim = 0 := by omega
        simp [entityDim, hd0]
  | .obj d dim idx items =>
    simp only [wfEntity, Bool.and_eq_true] at h
    by_cases hdim : 0 < dim
    · rw [if_pos hdim] at h
      match idx with
      | some t =>
        rw [Bool.and_eq_true, beq_iff_eq] at h
        refine ⟨setOnsetNames t, ?_, ?_⟩
        · simp [_get_onset_names, hdim]
        · rw [setOnsetNames_length_wf t h.1.1, h.1.2, entityDim]
    · refine ⟨[], ?_, ?_⟩
      · simp [_get_onset_names, hdim]
      · have hd0 : dim = 0 := by omega
        simp [entityDim, hd0]
  | .unknown => simp [wfEntity] at h

/-- Witness for C1 at a concrete 3-dimensional variable indexed by a nested
cross-product set. -/
theorem c1_onset_label_count_witness :
    wfEntity (.var none 3 (some tripleSet) []) = true ∧
    ∃ ls, _get_onset_names (.var none 3 (some tripleSet) []) = .ok ls ∧
      ls.length = entityDim (.var none 3 (some tripleSet) []) :=
  ⟨by decide, c1_onset_label_count (.var none 3 (some tripleSet) []) (by decide)⟩

/-- C6: an object that is not one of the known entity categories (modelled by
`Entity.unknown`) makes `_get_onset_names` raise `ValueError` immediately;
the `Except.error` result carries no partial label list. -/
theorem c6_unknown_entity_raises :
    _get_onset_names Entity.unknown = .error "Unknown entity type!" := rfl

/-- C3 (code bug): evaluating `get_entity` on the 1-dimensional unrestricted
set `plants` of the sample model.  The derived label list is `["plants"]` —
nonempty, so the `if not labels:` rename (pyomoio.py lines 42-44) never
fires for an unrestricted 1-dimensional set, contradicting the code's own
comment (lines 38-41): the value-column title stays the plain entity name
`"plants"`, collides with the identically named index label, and
`set_index` raises on the duplicated column — no series with index level
`plants` and value column `plants_` is ever produced. -/
theorem c3_unrestricted_set_eval :
    _get_onset_names (.set plantsSet none) = .ok ["plants"] ∧
    get_entity transpInst "plants"
      = .error "ValueError: The column label is not unique" := ⟨rfl, rfl⟩

/-- C2 (counterexample): the duplicate-label scan checks each label against
the already-renamed prefix, so a label occurring three times is renamed to
the same marked name twice and the scanned list keeps a duplicate. -/
theorem c2_dedupe_counterexample :
    dedupeLabels ["a", "a", "a"] = ["a", "a_", "a_"] ∧
    ¬ (dedupeLabels ["a", "a", "a"]).Nodup := by
  exact ⟨rfl, by decide⟩

/-- C5 (counterexample): on a model with no attributes at all,
`list_entities` with an unrecognized kind tag returns the empty table
instead of raising — the tag check lives inside the per-attribute filter,
which is never invoked. -/
theorem c5_invalid_kind_counterexample :
    list_entities [] "bogus" = .ok (.df { columns := [], rows := [] }) := rfl

/-- C10 (counterexample): a well-formed, nonempty 2-dimensional set does not
produce a series — its two elements-in-one-cell rows are two columns wide
while the label assignment supplies three names, so `get_entity` raises
pandas' length-mismatch error. -/
theorem c10_multidim_set_counterexample :
    wfEntity (.set pmSet none) = true ∧
    entityIsEmpty (.set pmSet none) = false ∧
    get_entity [("pm", .set pmSet none)] "pm"
      = .error "ValueError: Length mismatch" := by
  exact ⟨by decide, by decide, rfl⟩

theorem onsetF_converges :
    ∀ n, (∀ s : PyoSet, sizeOf s ≤ n →
            onsetF n (.inl s) = some (setOnsetNames s)) ∧
         (∀ l : List PyoSet, sizeOf l ≤ n →
            onsetF n (.inr l) = some (setOnsetNamesList l)) := by
  intro n
  induction n using Nat.strong_induction_on with
  | _ n IH =>
    constructor
    · intro s hsz
      match n, s with
      | 0, .mk nm dimen dom st v el =>
        simp only [PyoSet.mk.sizeOf_spec] at hsz
        omega
      | n + 1, .mk nm dimen dom st v el =>
        by_cases h1 : 1 < dimen
        · match dom with
          | some (.mk dn dd ddom dst dv del) =>
            have hd : sizeOf dst ≤ n := by
              simp only [PyoSet.mk.sizeOf_spec, Option.some.sizeOf_spec] at hsz
              omega
            simp only [onsetF, setOnsetNames, if_pos h1]
            exact (IH n (Nat.lt_succ_self n)).2 dst hd
          | none =>
            have hd : sizeOf st ≤ n := by
              simp only [PyoSet.mk.sizeOf_spec] at hsz
              omega
            simp only [onsetF, setOnsetNames, if_pos h1]
            exact (IH n (Nat.lt_succ_self n)).2 st hd
        · by_cases h2 : dimen = 1
          · subst h2
            match dom with
            | some d => simp [onsetF, setOnsetNames]
            | none => simp [onsetF, setOnsetNames]
          · have hd0 : dimen = 0 := by omega
            subst hd0
            simp [onsetF, setOnsetNames]
    · intro l hsz
      match n, l with
      | 0, [] =>
        simp only [List.nil.sizeOf_spec] at hsz
        omega
      | 0, x :: xs =>
        simp only [List.cons.sizeOf_spec] at hsz
        omega
      | n + 1, [] => simp [onsetF, setOnsetNamesList]
      | n + 1, x :: xs =>
        have hx : sizeOf x ≤ n := by
          simp only [List.cons.sizeOf_spec] at hsz
          omega
        have hxs : sizeOf xs ≤ n := by
          simp only [List.cons.sizeOf_spec] at hsz
          omega
        simp only [onsetF, setOnsetNamesList,
          (IH n (Nat.lt_succ_self n)).1 x hx,
          (IH n (Nat.lt_succ_self n)).2 xs hxs]

/-- C8: the recursive label derivation terminates on every entity, however
deeply the cross-product domains are nested: running the fuel-instrumented
mirror of the recursion with any fuel bounding the entity's tree size
converges (never exhausts the fuel) and computes `_get_onset_names`. -/
theorem c8_onset_names_terminates (e : Entity) (fuel : Nat)
    (h : sizeOf e ≤ fuel) :
    getOnsetNamesF fuel e = some (_get_onset_names e) := by
  match fuel, e with
  | 0, e =>
    cases e <;> simp_arith [Entity.set.sizeOf_spec] at h
  | fuel + 1, .set s d =>
    have hs : sizeOf s ≤ fuel := by
      simp only [Entity.set.sizeOf_spec] at h
      omega
    simp only [getOnsetNamesF, _get_onset_names,
      (onsetF_converges fuel).1 s hs, Option.map_some']
  | fuel + 1, .param d dim idx items =>
    by_cases hdim : 0 < dim
    · match idx with
      | some t =>
        have ht : sizeOf t ≤ fuel := by
          simp only [Entity.param.sizeOf_spec, Option.some.sizeOf_spec] at h
          omega
        simp only [getOnsetNamesF, _get_onset_names, if_pos hdim,
          (onsetF_converges fuel).1 t ht, Option.map_some']
      | none =>
        simp only [getOnsetNamesF, _get_onset_names, if_pos hdim]
    · simp only [getOnsetNamesF, _get_onset_names, if_neg hdim]
  | fuel + 1, .var d dim idx items =>
    by_cases hdim : 0 < dim
    · match idx with
      | some t =>
        have ht : sizeOf t ≤ fuel := by
          simp only [Entity.var.sizeOf_spec, Option.some.sizeOf_spec] at h
          omega
        simp only [getOnsetNamesF, _get_onset_names, if_pos hdim,
          (onsetF_converges fuel).1 t ht, Option.map_some']
      | none =>
        simp only [getOnsetNamesF, _get_onset_names, if_pos hdim]
    · simp only [getOnsetNamesF, _get_onset_names, if_neg hdim]
  | fuel + 1, .con d dim idx items =>
    by_cases hdim : 0 < dim
    · match idx with
      | some t =>
        have ht : sizeOf t ≤ fuel := by
          simp only [Entity.con.sizeOf_spec, Option.some.sizeOf_spec] at h
          omega
        simp only [getOnsetNamesF, _get_onset_names, if_pos hdim,
          (onsetF_converges fuel).1 t ht, Option.map_some']
      | none =>
        simp only [getOnsetNamesF, _get_onset_names, if_pos hdim]
    · simp only [getOnsetNamesF, _get_onset_names, if_neg hdim]
  | fuel + 1, .obj d dim idx items =>
    by_cases hdim : 0 < dim
    · match idx with
      | some t =>
        have ht : sizeOf t ≤ fuel := by
          simp only [Entity.obj.sizeOf_spec, Option.some.sizeOf_spec] at h
          omega
        simp only [getOnsetNamesF, _get_onset_names, if_pos hdim,
          (onsetF_converges fuel).1 t ht, Option.map_some']
      | none =>
        simp only [getOnsetNamesF, _get_onset_names, if_pos hdim]
    · simp only [getOnsetNamesF, _get_onset_names, if_neg hdim]
  | fuel + 1, .unknown => rfl

/-- Witness for C8 at the nested 3-dimensional variable. -/
theorem c8_onset_names_terminates_witness :
    sizeOf (Entity.var none 3 (some tripleSet) []) ≤ 1000000 ∧
    getOnsetNamesF 1000000 (.var none 3 (some tripleSet) [])
      = some (_get_onset_names (.var none 3 (some tripleSet) [])) :=
  ⟨by decide,
   c8_onset_names_terminates (.var none 3 (some tripleSet) []) 1000000 (by decide)⟩

theorem dedupeStep_length (acc : List String) (l : String) :
    (dedupeStep acc l).length = acc.length + 1 := by
  rw [dedupeStep]
  split <;> simp

theorem dedupeStep_as_append (acc : List String) (x : String) :
    dedupeStep acc x = acc ++ [if x ∈ acc then x ++ "_" else x] := by
  by_cases h : x ∈ acc <;> simp [dedupeStep, h]

theorem foldl_dedupe_length :
    ∀ (L acc : List String), (L.foldl dedupeStep acc).length = acc.length + L.length
  | [], acc => by simp
  | x :: L, acc => by
    rw [List.foldl_cons, foldl_dedupe_length L, dedupeStep_length, List.length_cons]
    omega

theorem dedupe_length (L : List String) : (dedupeLabels L).length = L.length := by
  rw [dedupeLabels, foldl_dedupe_length]
  simp

theorem foldl_dedupe_prefix :
    ∀ (L acc : List String), ∃ r, L.foldl dedupeStep acc = acc ++ r
  | [], acc => ⟨[], by simp⟩
  | x :: L, acc => by
    obtain ⟨r, hr⟩ := foldl_dedupe_prefix L (dedupeStep acc x)
    rw [List.foldl_cons, hr, dedupeStep_as_append]
    exact ⟨[if x ∈ acc then x ++ "_" else x] ++ r, by simp⟩

theorem dedupe_take (L : List String) (k : Nat) (hk : k ≤ L.length) :
    (dedupeLabels L).take k = dedupeLabels (L.take k) := by
  have hsplit : dedupeLabels L = (L.drop k).foldl dedupeStep (dedupeLabels (L.take k)) := by
    rw [dedupeLabels, dedupeLabels, ← List.foldl_append, List.take_append_drop]
  obtain ⟨r, hr⟩ := foldl_dedupe_prefix (L.drop k) (dedupeLabels (L.take k))
  have hlen : (dedupeLabels (L.take k)).length = k := by
    rw [dedupe_length, List.length_take]
    omega
  rw [hsplit, hr, List.take_left' hlen]

theorem append_underscore_inj {x y : String} (h : x ++ "_" = y ++ "_") : x = y := by
  have hd := congrArg String.data h
  simp only [String.data_append] at hd
  exact String.ext (List.append_cancel_right hd)

theorem nodup_concat {α : Type} [DecidableEq α] {a : α} {l : List α}
    (h : l.Nodup) (ha : a ∉ l) : (l ++ [a]).Nodup := by
  simp [List.nodup_append, h, ha]

theorem dedupe_nodup_aux :
    ∀ (r p acc : List String),
      (∀ x ∈ p ++ r, (p ++ r).count x ≤ 2) →
      (∀ x ∈ p ++ r, (x ++ "_") ∉ p ++ r) →
      (∀ x ∈ acc, x ∈ p ∨ ∃ y, x = y ++ "_" ∧ 2 ≤ p.count y) →
      (∀ x ∈ p, x ∈ acc) →
      acc.Nodup →
      (r.foldl dedupeStep acc).Nodup := by
  intro r
  induction r with
  | nil =>
    intro p acc _ _ _ _ hnd
    simpa using hnd
  | cons l ls ih =>
    intro p acc h1 h2 hmem hcov hnd
    rw [List.foldl_cons, dedupeStep_as_append]
    have hassoc : p ++ l :: ls = (p ++ [l]) ++ ls := by simp
    have h1a : ∀ x ∈ (p ++ [l]) ++ ls, ((p ++ [l]) ++ ls).count x ≤ 2 := by
      intro x hx
      rw [← hassoc] at hx ⊢
      exact h1 x hx
    have h2a : ∀ x ∈ (p ++ [l]) ++ ls, (x ++ "_") ∉ (p ++ [l]) ++ ls := by
      intro x hx
      rw [← hassoc] at hx ⊢
      exact h2 x hx
    have hlin : l ∈ p ++ l :: ls :=
      List.mem_append_right p (List.mem_cons_self l ls)
    by_cases hl : l ∈ acc
    · -- the label already occurs: the marked copy is appended
      have hlp : l ∈ p := by
        rcases hmem l hl with h | ⟨y, hy, hcy⟩
        · exact h
        · exfalso
          have hyp : y ∈ p := by
            have : 0 < p.count y := by omega
            exact List.count_pos_iff.mp this
          exact h2 y (List.mem_append_left _ hyp) (hy ▸ hlin)
      rw [if_pos hl]
      apply ih (p ++ [l]) (acc ++ [l ++ "_"]) h1a h2a ?_ ?_ ?_
      · intro x hx
        rcases List.mem_append.mp hx with hx | hx
        · rcases hmem x hx with h | ⟨y, hy, hcy⟩
          · exact Or.inl (List.mem_append_left _ h)
          · refine Or.inr ⟨y, hy, ?_⟩
            rw [List.count_append]
            omega
        · have hx : x = l ++ "_" := List.mem_singleton.mp hx
          refine Or.inr ⟨l, hx, ?_⟩
          have hp : 0 < p.count l := List.count_pos_iff.mpr hlp
          rw [List.count_append]
          have h1l : List.count l [l] = 1 := by simp
          omega
      · intro x hx
        rcases List.mem_append.mp hx with hx | hx
        · exact List.mem_append_left _ (hcov x hx)
        · have : x = l := List.mem_singleton.mp hx
          exact List.mem_append_left _ (this ▸ hl)
      · refine nodup_concat hnd ?_
        intro hmark
        rcases hmem (l ++ "_") hmark with h | ⟨y, hy, hcy⟩
        · exact h2 l hlin (List.mem_append_left _ h)
        · have hyl : y = l := append_underscore_inj hy.symm
          rw [hyl] at hcy
          have hcl := h1 l hlin
          rw [List.count_append, List.count_cons_self] at hcl
          omega
    · -- fresh label: kept as is
      rw [if_neg hl]
      apply ih (p ++ [l]) (acc ++ [l]) h1a h2a ?_ ?_ (nodup_concat hnd hl)
      · intro x hx
        rcases List.mem_append.mp hx with hx | hx
        · rcases hmem x hx with h | ⟨y, hy, hcy⟩
          · exact Or.inl (List.mem_append_left _ h)
          · refine Or.inr ⟨y, hy, ?_⟩
            rw [List.count_append]
            omega
        · exact Or.inl (List.mem_append_right _ hx)
      · intro x hx
        rcases List.mem_append.mp hx with hx | hx
        · exact List.mem_append_left _ (hcov x hx)
        · exact List.mem_append_right _ hx

/-- C2 (amended): the duplicate scan of `get_entity` appends a trailing
underscore to position `k` exactly when the label at `k` already occurs in
the (already-scanned, possibly renamed) positions before `k`, leaving every
other position unchanged; and the scanned list has no duplicates provided no
label occurs more than twice and no label of the input already carries
another label's trailing marker. -/
theorem c2_dedupe_amended (L : List String) :
    (dedupeLabels L).length = L.length ∧
    (∀ k (hk : k < L.length),
      (dedupeLabels L).take (k + 1) =
        (dedupeLabels L).take k ++
          [if L[k] ∈ (dedupeLabels L).take k then L[k] ++ "_" else L[k]]) ∧
    ((∀ x ∈ L, L.count x ≤ 2) → (∀ x ∈ L, (x ++ "_") ∉ L) →
      (dedupeLabels L).Nodup) := by
  refine ⟨dedupe_length L, ?_, ?_⟩
  · intro k hk
    rw [dedupe_take L (k + 1) (by omega), dedupe_take L k (by omega),
      ← List.take_concat_get' L k hk]
    simp only [dedupeLabels, List.foldl_append, List.foldl_cons, List.foldl_nil,
      dedupeStep_as_append]
  · intro h1 h2
    exact dedupe_nodup_aux L [] [] (by simpa using h1) (by simpa using h2)
      (by simp) (by simp) List.nodup_nil

/-- Witness for the amended C2 at the spec's own example labels. -/
theorem c2_dedupe_amended_witness :
    (∀ x ∈ (["sit", "sit", "com"] : List String),
      (["sit", "sit", "com"] : List String).count x ≤ 2) ∧
    (∀ x ∈ (["sit", "sit", "com"] : List String),
      (x ++ "_") ∉ (["sit", "sit", "com"] : List String)) ∧
    (dedupeLabels ["sit", "sit", "com"]).Nodup :=
  ⟨by decide, by decide,
   (c2_dedupe_amended ["sit", "sit", "com"]).2.2 (by decide) (by decide)⟩

theorem except_bind_ok {ε α β : Type} (a : α) (f : α → Except ε β) :
    ((Except.ok a : Except ε α) >>= f) = f a := rfl

theorem except_bind_error {ε α β : Type} (e : ε) (f : α → Except ε β) :
    ((Except.error e : Except ε α) >>= f) = Except.error e := rfl

theorem except_pure {ε α : Type} (a : α) :
    (pure a : Except ε α) = Except.ok a := rfl

theorem join_step_rows (joinFn : IndexedFrame → PSeries → IndexedFrame)
    (df : IndexedFrame) (other : PSeries) :
    (join_step joinFn df other).rows = (joinFn df other).rows := by
  simp only [join_step]
  split <;> rfl

theorem join_step_indexNames (joinFn : IndexedFrame → PSeries → IndexedFrame)
    (df : IndexedFrame) (other : PSeries) :
    (join_step joinFn df other).indexNames = df.indexNames := by
  simp only [join_step]
  split
  · rfl
  · next h => exact (not_ne_iff.mp h).symm

theorem pandasOuterJoin_rows_ne_nil (df : IndexedFrame) (s : PSeries)
    (h : df.rows ≠ []) : (pandasOuterJoin df s).rows ≠ [] := by
  simp only [pandasOuterJoin]
  intro hc
  rw [List.map_eq_nil_iff, List.append_eq_nil] at hc
  rw [List.map_eq_nil_iff] at hc
  exact h hc.1

/-- C4: in `get_entities`, the index-level names of the running combined
table survive every join step — if the outer join (an arbitrary pandas
collaborator `joinFn`) changes them, the prior names are restored — and
hence the whole accumulation loop seeded with a nonempty frame preserves
that frame's index-level names. -/
theorem c4_join_preserves_index_names :
    (∀ (joinFn : IndexedFrame → PSeries → IndexedFrame) (df : IndexedFrame)
        (other : PSeries),
      (join_step joinFn df other).indexNames = df.indexNames) ∧
    (∀ (inst : List (String × Entity)) (ns : List String)
        (f0 f : IndexedFrame),
      f0.rows ≠ [] →
      get_entitiesGo pandasOuterJoin inst ns (.idf f0) = .ok (.idf f) →
      f.indexNames = f0.indexNames) := by
  refine ⟨join_step_indexNames, ?_⟩
  intro inst ns
  induction ns with
  | nil =>
    intro f0 f hne h
    simp only [get_entitiesGo, Except.ok.injEq, PandasObj.idf.injEq] at h
    rw [← h]
  | cons nm rest ih =>
    intro f0 f hne h
    simp only [get_entitiesGo] at h
    cases hge : get_entity inst nm with
    | error e =>
      rw [hge] at h
      rw [except_bind_error] at h
      exact Except.noConfusion h
    | ok other =>
      rw [hge] at h
      have hempty : f0.rows.isEmpty = false := by
        cases hr : f0.rows with
        | nil => exact absurd hr hne
        | cons a as => rfl
      cases other with
      | series s =>
        rw [except_bind_ok] at h
        simp only [hempty, Bool.false_eq_true, if_false] at h
        have hrows : (join_step pandasOuterJoin f0 s).rows ≠ [] := by
          rw [join_step_rows]
          exact pandasOuterJoin_rows_ne_nil f0 s hne
        have := ih (join_step pandasOuterJoin f0 s) f hrows h
        rw [this, join_step_indexNames]
      | df d =>
        rw [except_bind_ok] at h
        simp [hempty] at h
      | idf f2 =>
        rw [except_bind_ok] at h
        simp [hempty] at h

/-- Witness for C4: joining `demand` into the nonempty `capacity` frame
keeps the index level name `plants`. -/
theorem c4_join_preserves_index_names_witness :
    capacityFrame.rows ≠ [] ∧
    get_entitiesGo pandasOuterJoin transpInst ["demand"] (.idf capacityFrame)
      = .ok (.idf capDemandFrame) ∧
    capDemandFrame.indexNames = capacityFrame.indexNames :=
  ⟨by decide, by rfl,
   c4_join_preserves_index_names.2 transpInst ["demand"] capacityFrame
     capDemandFrame (by decide) (by rfl)⟩

theorem onset_names_ok (e : Entity) (h : e ≠ .unknown) :
    ∃ ls, _get_onset_names e = .ok ls := by
  match e with
  | .set s d => exact ⟨_, rfl⟩
  | .param d dim idx items =>
    by_cases hdim : 0 < dim
    · match idx with
      | some t => exact ⟨setOnsetNames t, by simp [_get_onset_names, hdim]⟩
      | none => exact ⟨[], by simp [_get_onset_names, hdim]⟩
    · exact ⟨[], by simp [_get_onset_names, hdim]⟩
  | .var d dim idx items =>
    by_cases hdim : 0 < dim
    · match idx with
      | some t => exact ⟨setOnsetNames t, by simp [_get_onset_names, hdim]⟩
      | none => exact ⟨[], by simp [_get_onset_names, hdim]⟩
    · exact ⟨[], by simp [_get_onset_names, hdim]⟩
  | .con d dim idx items =>
    by_cases hdim : 0 < dim
    · match idx with
      | some t => exact ⟨setOnsetNames t, by simp [_get_onset_names, hdim]⟩
      | none => exact ⟨[], by simp [_get_onset_names, hdim]⟩
    · exact ⟨[], by simp [_get_onset_names, hdim]⟩
  | .obj d dim idx items =>
    by_cases hdim : 0 < dim
    · match idx with
      | some t => exact ⟨setOnsetNames t, by simp [_get_onset_names, hdim]⟩
      | none => exact ⟨[], by simp [_get_onset_names, hdim]⟩
    · exact ⟨[], by simp [_get_onset_names, hdim]⟩
  | .unknown => exact absurd rfl h

theorem filter_by_type_ok (e : Entity) (ty : String)
    (hty : ty ∈ ["set", "par", "var", "con", "obj"]) :
    ∃ b, filter_by_type e ty = .ok b := by
  fin_cases hty <;> simp [filter_by_type]

theorem filter_by_type_error (e : Entity) (ty : String)
    (hty : ty ∉ ["set", "par", "var", "con", "obj"]) :
    filter_by_type e ty = .error ("Unknown entity_type '" ++ ty ++ "'") := by
  simp only [List.mem_cons, List.mem_singleton, not_or] at hty
  obtain ⟨h1, h2, h3, h4, h5, _⟩ := hty
  simp [filter_by_type, h1, h2, h3, h4, h5]

theorem filter_true_not_unknown (e : Entity) (ty : String)
    (hf : filter_by_type e ty = .ok true) : e ≠ .unknown := by
  intro hcontra
  subst hcontra
  by_cases h1 : ty = "set"
  · simp [filter_by_type, h1] at hf
  by_cases h2 : ty = "par"
  · simp [filter_by_type, h1, h2] at hf
  by_cases h3 : ty = "var"
  · simp [filter_by_type, h1, h2, h3] at hf
  by_cases h4 : ty = "con"
  · simp [filter_by_type, h1, h2, h3, h4] at hf
  by_cases h5 : ty = "obj"
  · simp [filter_by_type, h1, h2, h3, h4, h5] at hf
  · simp [filter_by_type, h1, h2, h3, h4, h5] at hf

theorem listRows_ok (ty : String)
    (hty : ty ∈ ["set", "par", "var", "con", "obj"]) :
    ∀ inst, ∃ rs, listRows ty inst = .ok rs := by
  intro inst
  induction inst with
  | nil => exact ⟨[], rfl⟩
  | cons p rest ih =>
    obtain ⟨n, e⟩ := p
    obtain ⟨b, hb⟩ := filter_by_type_ok e ty hty
    obtain ⟨rs, hrs⟩ := ih
    cases b with
    | false =>
      refine ⟨rs, ?_⟩
      simp only [listRows, hb, except_bind_ok, Bool.false_eq_true, if_false]
      exact hrs
    | true =>
      obtain ⟨ls, hls⟩ := onset_names_ok e (filter_true_not_unknown e ty hb)
      refine ⟨(n, e.doc, ls) :: rs, ?_⟩
      simp only [listRows, hb, except_bind_ok, if_true, hls, hrs]
      rfl

theorem listRows_error (ty : String)
    (hty : ty ∉ ["set", "par", "var", "con", "obj"])
    (n : String) (e : Entity) (rest : List (String × Entity)) :
    listRows ty ((n, e) :: rest)
      = .error ("Unknown entity_type '" ++ ty ++ "'") := by
  simp only [listRows, filter_by_type_error e ty hty, except_bind_error]

/-- C5 (amended): `list_entities` raises the invalid-kind error exactly when
the kind tag is unrecognized *and* the model has at least one attribute (the
tag check happens inside the lazily-invoked per-attribute filter); for a
recognized tag with no matching entities it returns the empty table rather
than raising. -/
theorem c5_list_entities_error_iff (inst : List (String × Entity))
    (ty : String) :
    ((∃ msg, list_entities inst ty = .error msg) ↔
      (ty ∉ ["set", "par", "var", "con", "obj"] ∧ inst ≠ [])) ∧
    (ty ∈ ["set", "par", "var", "con", "obj"] → listRows ty inst = .ok [] →
      list_entities inst ty = .ok (.df { columns := [], rows := [] })) := by
  constructor
  · constructor
    · rintro ⟨msg, hmsg⟩
      constructor
      · intro hty
        obtain ⟨rs, hrs⟩ := listRows_ok ty hty inst
        simp only [list_entities, hrs, except_bind_ok] at hmsg
        split at hmsg <;> exact Except.noConfusion hmsg
      · intro hinst
        subst hinst
        simp [list_entities, listRows, sortRows, except_bind_ok, except_pure] at hmsg
    · rintro ⟨hty, hinst⟩
      match inst with
      | [] => exact absurd rfl hinst
      | (n, e) :: rest =>
        refine ⟨"Unknown entity_type '" ++ ty ++ "'", ?_⟩
        simp only [list_entities, listRows_error ty hty n e rest,
          except_bind_error]
  · intro hty hrows
    simp only [list_entities, hrows, except_bind_ok]
    rfl

/-- Witness for the amended C5: a recognized tag with no matching entities
yields the empty table. -/
theorem c5_list_entities_error_iff_witness :
    ("var" ∈ ["set", "par", "var", "con", "obj"]) ∧
    listRows "var" [("plants", .set plantsSet none)] = .ok [] ∧
    list_entities [("plants", .set plantsSet none)] "var"
      = .ok (.df { columns := [], rows := [] }) :=
  ⟨by decide, by rfl,
   (c5_list_entities_error_iff [("plants", .set plantsSet none)] "var").2
     (by decide) (by rfl)⟩

theorem get_entity_empty (inst : List (String × Entity)) (name : String)
    (e : Entity) (hlk : getattrE inst name = .ok e)
    (hls : ∃ ls, _get_onset_names e = .ok ls)
    (hempty : entityIsEmpty e = true) :
    get_entity inst name = .ok (.df { columns := [], rows := [] }) := by
  obtain ⟨ls, hls⟩ := hls
  match e with
  | .set s d =>
    have hval : s.value = [] := by
      simpa [entityIsEmpty, List.isEmpty_iff] using hempty
    simp only [get_entity, hlk, except_bind_ok, hls, hval, List.map_nil]
    split <;> rfl
  | .param d dim idx items =>
    have hval : items = [] := by
      simpa [entityIsEmpty, List.isEmpty_iff] using hempty
    subst hval
    simp only [get_entity, hlk, except_bind_ok, hls, List.map_nil]
    split <;> rfl
  | .var d dim idx items =>
    have hval : items = [] := by
      simpa [entityIsEmpty, List.isEmpty_iff] using hempty
    subst hval
    simp only [get_entity, hlk, except_bind_ok, hls, List.map_nil]
    split <;> rfl
  | .con d dim idx items =>
    have hval : items = [] := by
      simpa [entityIsEmpty, List.isEmpty_iff] using hempty
    subst hval
    simp only [get_entity, hlk, except_bind_ok, hls, List.map_nil]
    split <;> rfl
  | .obj d dim idx items =>
    have hval : items = [] := by
      simpa [entityIsEmpty, List.isEmpty_iff] using hempty
    subst hval
    simp only [get_entity, hlk, except_bind_ok, hls, List.map_nil]
    split <;> rfl
  | .unknown => exact Except.noConfusion hls

/-- C7: extracting an entity with zero `(index, value)` elements returns the
raw empty frame: no error is raised and no index is ever set on the empty
table. -/
theorem c7_empty_entity_extraction (inst : List (String × Entity))
    (name : String) (e : Entity) (hlk : getattrE inst name = .ok e)
    (hls : ∃ ls, _get_onset_names e = .ok ls)
    (hempty : entityIsEmpty e = true) :
    get_entity inst name = .ok (.df { columns := [], rows := [] }) :=
  get_entity_empty inst name e hlk hls hempty

/-- Witness for C7: the sample model's `empty_par` parameter has no items
and extracts to the empty frame. -/
theorem c7_empty_entity_extraction_witness :
    get_entity transpInst "empty_par" = .ok (.df { columns := [], rows := [] }) :=
  c7_empty_entity_extraction transpInst "empty_par"
    (.param none 1 (some marketsSet) []) (by rfl) ⟨["markets"], by rfl⟩ (by rfl)

theorem except_map_ok {ε α β : Type} (f : α → β) (a : α) :
    (f <$> (Except.ok a : Except ε α)) = Except.ok (f a) := rfl

theorem findIdx_self_cons (l : String) (rest : List String) :
    List.findIdx (fun x => x == l) (l :: rest) = 0 := by
  simp [List.findIdx_cons]

theorem ne_append_underscore (x : String) : x ≠ x ++ "_" := by
  intro h
  have h2 := congrArg String.length h
  rw [String.length_append] at h2
  have h3 : ("_" : String).length = 1 := rfl
  omega

theorem setIndexSelect_two (l name : String) (hln : l ≠ name)
    (rows : List (List Cell)) :
    DataFrame.setIndexSelect { columns := [l, name], rows := rows } [l] name
      = .ok { indexNames := [l], sname := name,
              entries := rows.map (fun r =>
                ([r.getD 0 Cell.null], r.getD 1 Cell.null)) } := by
  have h2 : List.filter (fun i => ! [0].contains i)
      (List.range ([l, name] : List String).length) = [1] := rfl
  have h3 : List.filterMap (fun i => ([l, name] : List String).get? i) [1]
      = [name] := rfl
  have hc1 : (([l] : List String).all
      (fun x => ([l, name] : List String).contains x)) = true := by simp
  have hc2 : (([l] : List String).all
      (fun x => ([l, name] : List String).count x == 1)) = true := by
    simp [List.count_cons, Ne.symm hln]
  have hc3 : (([name] : List String).contains name) = true := by simp
  simp only [DataFrame.setIndexSelect, List.map_cons, List.map_nil,
    findIdx_self_cons, h2, h3, hc1, hc2, hc3, Bool.not_true, if_false]
  rfl

theorem setIndexSelect_dup (name : String) (rows : List (List Cell)) :
    DataFrame.setIndexSelect { columns := [name, name], rows := rows } [name] name
      = .error "ValueError: The column label is not unique" := by
  have hc1 : (([name] : List String).all
      (fun x => ([name, name] : List String).contains x)) = true := by simp
  have hdup : (([name] : List String).all
      (fun x => ([name, name] : List String).count x == 1)) = false := by
    simp [List.count_cons]
  simp only [DataFrame.setIndexSelect, hc1, hdup, Bool.not_true,
    Bool.not_false, if_false, if_true]
  rfl

theorem findIdx_append_lt (dl : List String) (nm x : String) (hx : x ∈ dl) :
    List.findIdx (fun y => y == x) (dl ++ [nm]) < dl.length := by
  induction dl with
  | nil => cases hx
  | cons a as ih =>
    rw [List.cons_append, List.findIdx_cons]
    by_cases hax : (a == x) = true
    · simp [hax]
    · rcases List.mem_cons.mp hx with h | h
      · subst h
        exact absurd (beq_self_eq_true x) hax
      · have hax2 : (a == x) = false := by
          simpa using hax
        simp only [hax2, cond_false, List.length_cons]
        exact Nat.succ_lt_succ (ih h)

theorem setIndexSelect_ok (dl : List String) (nm : String)
    (rows : List (List Cell)) (hnd : dl.Nodup) (hnm : nm ∉ dl) :
    ∃ s, DataFrame.setIndexSelect { columns := dl ++ [nm], rows := rows } dl nm
      = .ok s := by
  have hc1 : (dl.all (fun l => (dl ++ [nm]).contains l)) = true := by
    rw [List.all_eq_true]
    intro x hx
    exact List.elem_iff.mpr (List.mem_append_left _ hx)
  have hc2 : (dl.all (fun l => (dl ++ [nm]).count l == 1)) = true := by
    rw [List.all_eq_true]
    intro x hx
    have hxnm : nm ≠ x := fun h => hnm (h ▸ hx)
    have h0 : List.count x [nm] = 0 := by
      simp [List.count_singleton, hxnm]
    have h1 : List.count x (dl ++ [nm]) = 1 := by
      rw [List.count_append, List.count_eq_one_of_mem hnd hx, h0]
    simp [h1]
  have hni : dl.length ∉ dl.map (fun l => List.findIdx (fun x => x == l) (dl ++ [nm])) := by
    intro hmem2
    obtain ⟨l0, hl0, heq⟩ := List.mem_map.mp hmem2
    have := findIdx_append_lt dl nm l0 hl0
    omega
  have hmem : nm ∈ (List.filter
      (fun i => !(dl.map (fun l => List.findIdx (fun x => x == l) (dl ++ [nm]))).contains i)
      (List.range (dl ++ [nm]).length)).filterMap (fun i => (dl ++ [nm]).get? i) := by
    rw [List.mem_filterMap]
    refine ⟨dl.length, ?_, ?_⟩
    · rw [List.mem_filter]
      refine ⟨?_, ?_⟩
      · rw [List.mem_range, List.length_append]
        simp
      · simp [hni]
    · rw [List.get?_append_right (Nat.le_refl _)]
      simp
  have hc3 := List.elem_iff.mpr hmem
  simp only [DataFrame.setIndexSelect, hc1, hc2, hc3, Bool.not_true, if_false]
  exact ⟨_, rfl⟩

theorem map_rows_entries :
    ∀ (items : List (List Cell × Int)), (∀ x ∈ items, x.1.length = 1) →
      (items.map (fun x => x.1 ++ [Cell.num x.2])).map
          (fun r => ([r.getD 0 Cell.null], r.getD 1 Cell.null))
        = items.map (fun x => (x.1, Cell.num x.2)) := by
  intro items
  induction items with
  | nil => intro _; rfl
  | cons v vs ih =>
    intro h
    obtain ⟨c, hc⟩ := List.length_eq_one.mp (h v (List.mem_cons_self v vs))
    rw [List.map_cons, List.map_cons, List.map_cons,
      ih (fun x hx => h x (List.mem_cons_of_mem _ hx)), hc]
    rfl

theorem dedupe_singleton (l : String) : dedupeLabels [l] = [l] := by
  simp [dedupeLabels, dedupeStep]

/-- Closed form of `get_entity` on a nonempty 1-dimensional parameter whose
single derived label is `l`: the result is the series of the raw items. -/
theorem get_entity_param1_eval (inst : List (String × Entity)) (name : String)
    (doc : Option String) (t : PyoSet) (l : String)
    (v : List Cell × Int) (vs : List (List Cell × Int))
    (hlk : getattrE inst name = .ok (.param doc 1 (some t) (v :: vs)))
    (hl : setOnsetNames t = [l])
    (hln : l ≠ name)
    (hw : ∀ x ∈ v :: vs, x.1.length = 1) :
    get_entity inst name
      = .ok (.series
          { indexNames := [l], sname := name,
            entries := (v :: vs).map (fun x => (x.1, Cell.num x.2)) }) := by
  obtain ⟨c, hc⟩ := List.length_eq_one.mp (hw v (List.mem_cons_self v vs))
  have hls : _get_onset_names (.param doc 1 (some t) (v :: vs)) = .ok [l] := by
    simp [_get_onset_names, hl]
  have hmain : get_entity inst name
      = .ok (.series
          { indexNames := [l], sname := name,
            entries := ((v :: vs).map (fun x => x.1 ++ [Cell.num x.2])).map
              (fun r => ([r.getD 0 Cell.null], r.getD 1 Cell.null)) }) := by
    rw [get_entity, hlk, except_bind_ok, hls, except_bind_ok]
    simp only [lt_self_iff_false, if_false, dedupe_singleton,
      DataFrame.fromRows, List.map_cons, List.isEmpty_cons, Bool.not_false,
      if_true, DataFrame.setColumns, List.headD_cons, List.singleton_append,
      List.length_cons, List.length_nil, List.length_append, hc,
      except_bind_ok, except_pure, except_map_ok, setIndexSelect_two l name hln]
  rw [hmain, map_rows_entries (v :: vs) hw]

/-- Closed form of `get_entity` on a nonempty 1-dimensional parameter whose
single derived label equals the entity's own attribute name: the value
column title duplicates the index label and `set_index` raises. -/
theorem get_entity_param1_dup (inst : List (String × Entity)) (name : String)
    (doc : Option String) (t : PyoSet)
    (v : List Cell × Int) (vs : List (List Cell × Int))
    (hlk : getattrE inst name = .ok (.param doc 1 (some t) (v :: vs)))
    (hl : setOnsetNames t = [name])
    (hw : ∀ x ∈ v :: vs, x.1.length = 1) :
    get_entity inst name
      = .error "ValueError: The column label is not unique" := by
  obtain ⟨c, hc⟩ := List.length_eq_one.mp (hw v (List.mem_cons_self v vs))
  have hls : _get_onset_names (.param doc 1 (some t) (v :: vs)) = .ok [name] := by
    simp [_get_onset_names, hl]
  rw [get_entity, hlk, except_bind_ok, hls, except_bind_ok]
  simp only [lt_self_iff_false, if_false, dedupe_singleton,
    DataFrame.fromRows, List.map_cons, List.isEmpty_cons, Bool.not_false,
    if_true, DataFrame.setColumns, List.headD_cons, List.singleton_append,
    List.length_cons, List.length_nil, List.length_append, hc,
    except_bind_ok, except_pure, except_map_ok, setIndexSelect_dup name,
    except_bind_error]

/-- C9: for every 1-dimensional numeric parameter, the sum of the values in
the series returned by `get_entity` equals the sum of the values of the
parameter's raw `(index, value)` pairs. -/
theorem c9_param_sum_preserved (inst : List (String × Entity)) (name : String)
    (doc : Option String) (idx : Option PyoSet)
    (items : List (List Cell × Int)) (s : PSeries)
    (hlk : getattrE inst name = .ok (.param doc 1 idx items))
    (hwf : wfEntity (.param doc 1 idx items) = true)
    (hres : get_entity inst name = .ok (.series s)) :
    seriesValsSum s = itemsSum items := by
  simp only [wfEntity, Bool.and_eq_true] at hwf
  rw [if_pos (by omega : (0 : Nat) < 1)] at hwf
  match idx with
  | none => exact absurd hwf.1 (by simp)
  | some t =>
    rw [Bool.and_eq_true, beq_iff_eq] at hwf
    obtain ⟨⟨hwft, hdim⟩, hall⟩ := hwf
    have hitems : ∀ x ∈ items, x.1.length = 1 := by
      intro x hx
      have := List.all_eq_true.mp hall x hx
      simpa using this
    have hlen : (setOnsetNames t).length = 1 := by
      rw [setOnsetNames_length_wf t hwft, hdim]
    obtain ⟨l, hl⟩ := List.length_eq_one.mp hlen
    match items with
    | [] =>
      have hempty := get_entity_empty inst name _ hlk
        ⟨[l], by simp [_get_onset_names, hl]⟩ rfl
      rw [hempty] at hres
      exact PandasObj.noConfusion (Except.ok.inj hres)
    | v :: vs =>
      by_cases hln : l = name
      · subst hln
        rw [get_entity_param1_dup inst l doc t v vs hlk hl hitems] at hres
        exact Except.noConfusion hres
      rw [get_entity_param1_eval inst name doc t l v vs hlk hl hln hitems] at hres
      have hs : s = PSeries.mk [l] name
          ((v :: vs).map (fun x => (x.1, Cell.num x.2))) := by
        exact (PandasObj.series.inj (Except.ok.inj hres)).symm
      subst hs
      simp only [seriesValsSum, itemsSum, List.map_map]
      rfl

/-- Witness for C9 at the `demand` parameter of the sample model. -/
theorem c9_param_sum_preserved_witness :
    wfEntity (.param none 1 (some marketsSet)
      [([.str "New-York"], 325), ([.str "Chicago"], 300),
       ([.str "Topeka"], 275)]) = true ∧
    seriesValsSum
      { indexNames := ["markets"], sname := "demand",
        entries := [([.str "New-York"], .num 325), ([.str "Chicago"], .num 300),
                    ([.str "Topeka"], .num 275)] }
      = itemsSum [([.str "New-York"], 325), ([.str "Chicago"], 300),
                  ([.str "Topeka"], 275)] :=
  ⟨by decide,
   c9_param_sum_preserved transpInst "demand" none (some marketsSet)
     [([.str "New-York"], 325), ([.str "Chicago"], 300), ([.str "Topeka"], 275)]
     { indexNames := ["markets"], sname := "demand",
       entries := [([.str "New-York"], .num 325), ([.str "Chicago"], .num 300),
                   ([.str "Topeka"], .num 275)] }
     (by rfl) (by decide) (by rfl)⟩

/-- C10 (amended): the type of `get_entity`'s result depends on emptiness.
For a well-formed entity whose label count matches its raw column count
(`entityFits`) and whose deduplicated labels neither repeat nor collide
with the value-column title (`columnsOk`), a nonempty entity yields a
single-column labeled series while an empty one yields the raw, unlabeled
empty frame that was never converted to a series.  (Outside those provisos
get_entity raises instead: a nonempty multi-dimensional set hits the
column-length mismatch — see the counterexample — and a label/title
collision such as an unrestricted 1-dimensional set makes `set_index`
raise on the duplicated column label.) -/
theorem c10_result_type_by_emptiness (inst : List (String × Entity))
    (name : String) (e : Entity) (hlk : getattrE inst name = .ok e)
    (hwf : wfEntity e = true) (hfit : entityFits e = true)
    (hcols : columnsOk name e = true) :
    (entityIsEmpty e = false → ∃ s, get_entity inst name = .ok (.series s)) ∧
    (entityIsEmpty e = true →
      get_entity inst name = .ok (.df { columns := [], rows := [] })) := by
  have hne : e ≠ .unknown := by
    intro hc
    subst hc
    simp [wfEntity] at hwf
  refine ⟨?_, fun h => get_entity_empty inst name e hlk (onset_names_ok e hne) h⟩
  intro hnonempty
  match e with
  | .set s d =>
    have hdim : s.dimen ≤ 1 := by simpa [entityFits] using hfit
    have hlen : (setOnsetNames s).length = s.dimen := setOnsetNames_length_wf s hwf
    match hv : s.value with
    | [] => simp [entityIsEmpty, hv] at hnonempty
    | v :: vs =>
      by_cases h1 : s.dimen = 1
      · obtain ⟨l, hl⟩ := List.length_eq_one.mp (by rw [hlen, h1])
        have hcols2 : ¬ name = l := by
          simpa [columnsOk, hl, dedupe_singleton] using hcols
        have hls : _get_onset_names (.set s d) = .ok [l] := by
          simp [_get_onset_names, hl]
        rw [get_entity, hlk, except_bind_ok, hls, except_bind_ok]
        simp only [hv, List.map_cons, List.cons_ne_nil, if_false,
          dedupe_singleton, DataFrame.fromRows, DataFrame.setColumns,
          List.isEmpty_cons, Bool.not_false, if_true, List.headD_cons,
          List.singleton_append, List.length_cons, List.length_nil,
          except_bind_ok, except_pure, except_map_ok]
        rw [setIndexSelect_two l name (fun h => hcols2 h.symm)]
        exact ⟨_, rfl⟩
      · have h0 : s.dimen = 0 := by omega
        have hl : setOnsetNames s = [] := by
          rw [← List.length_eq_zero, hlen, h0]
        have hls : _get_onset_names (.set s d) = .ok [] := by
          simp [_get_onset_names, hl]
        rw [get_entity, hlk, except_bind_ok, hls, except_bind_ok]
        simp only [hv, List.map_cons, if_pos rfl, dedupe_singleton,
          DataFrame.fromRows, DataFrame.setColumns, List.isEmpty_cons,
          Bool.not_false, if_true, List.headD_cons, List.singleton_append,
          List.length_cons, List.length_nil, except_bind_ok, except_pure,
          except_map_ok]
        rw [setIndexSelect_two name (name ++ "_") (ne_append_underscore name)]
        exact ⟨_, rfl⟩
  | .param d dim idx items =>
    simp only [wfEntity, Bool.and_eq_true] at hwf
    have hdim : 0 < dim := by simpa [entityFits] using hfit
    rw [if_pos hdim] at hwf
    match idx with
    | none => exact absurd hwf.1 (by simp)
    | some t =>
      rw [Bool.and_eq_true, beq_iff_eq] at hwf
      obtain ⟨⟨hwft, htdim⟩, hall⟩ := hwf
      have hcols2 : (dedupeLabels (setOnsetNames t)).Nodup ∧
          name ∉ dedupeLabels (setOnsetNames t) := by
        simpa [columnsOk, indexLabels, hdim] using hcols
      have hlen0 : (setOnsetNames t).length = dim := by
        rw [setOnsetNames_length_wf t hwft, htdim]
      have hls : _get_onset_names (.param d dim (some t) items)
          = .ok (setOnsetNames t) := by
        simp [_get_onset_names, hdim]
      match items with
      | [] => simp [entityIsEmpty] at hnonempty
      | v :: vs =>
        have hv1 : v.1.length = dim := by
          have := List.all_eq_true.mp hall v (List.mem_cons_self v vs)
          simp only [beq_iff_eq] at this
          omega
        rw [get_entity, hlk, except_bind_ok, hls, except_bind_ok]
        simp only [ite_self, List.map_cons, DataFrame.fromRows,
          DataFrame.setColumns, List.isEmpty_cons, Bool.not_false, if_true,
          List.headD_cons, List.length_append, List.length_cons,
          List.length_nil, dedupe_length, hlen0, hv1, except_bind_ok,
          except_pure, except_map_ok]
        obtain ⟨s2, hs2⟩ := setIndexSelect_ok (dedupeLabels (setOnsetNames t))
          name _ hcols2.1 hcols2.2
        rw [hs2, except_bind_ok]
        exact ⟨s2, rfl⟩
  | .var d dim idx items =>
    simp only [wfEntity, Bool.and_eq_true] at hwf
    have hdim : 0 < dim := by simpa [entityFits] using hfit
    rw [if_pos hdim] at hwf
    match idx with
    | none => exact absurd hwf.1 (by simp)
    | some t =>
      rw [Bool.and_eq_true, beq_iff_eq] at hwf
      obtain ⟨⟨hwft, htdim⟩, hall⟩ := hwf
      have hcols2 : (dedupeLabels (setOnsetNames t)).Nodup ∧
          name ∉ dedupeLabels (setOnsetNames t) := by
        simpa [columnsOk, indexLabels, hdim] using hcols
      have hlen0 : (setOnsetNames t).length = dim := by
        rw [setOnsetNames_length_wf t hwft, htdim]
      have hls : _get_onset_names (.var d dim (some t) items)
          = .ok (setOnsetNames t) := by
        simp [_get_onset_names, hdim]
      match items with
      | [] => simp [entityIsEmpty] at hnonempty
      | v :: vs =>
        have hv1 : v.1.length = dim := by
          have := List.all_eq_true.mp hall v (List.mem_cons_self v vs)
          simp only [beq_iff_eq] at this
          omega
        rw [get_entity, hlk, except_bind_ok, hls, except_bind_ok]
        simp only [ite_self, List.map_cons, DataFrame.fromRows,
          DataFrame.setColumns, List.isEmpty_cons, Bool.not_false, if_true,
          List.headD_cons, List.length_append, List.length_cons,
          List.length_nil, dedupe_length, hlen0, hv1, except_bind_ok,
          except_pure, except_map_ok]
        obtain ⟨s2, hs2⟩ := setIndexSelect_ok (dedupeLabels (setOnsetNames t))
          name _ hcols2.1 hcols2.2
        rw [hs2, except_bind_ok]
        exact ⟨s2, rfl⟩
  | .con d dim idx items =>
    simp only [wfEntity, Bool.and_eq_true] at hwf
    have hdim : 0 < dim := by simpa [entityFits] using hfit
    rw [if_pos hdim] at hwf
    match idx with
    | none => exact absurd hwf.1 (by simp)
    | some t =>
      rw [Bool.and_eq_true, beq_iff_eq] at hwf
      obtain ⟨⟨hwft, htdim⟩, hall⟩ := hwf
      have hcols2 : (dedupeLabels (setOnsetNames t)).Nodup ∧
          name ∉ dedupeLabels (setOnsetNames t) := by
        simpa [columnsOk, indexLabels, hdim] using hcols
      have hlen0 : (setOnsetNames t).length = dim := by
        rw [setOnsetNames_length_wf t hwft, htdim]
      have hls : _get_onset_names (.con d dim (some t) items)
          = .ok (setOnsetNames t) := by
        simp [_get_onset_names, hdim]
      match items with
      | [] => simp [entityIsEmpty] at hnonempty
      | v :: vs =>
        have hv1 : v.1.length = dim := by
          have := List.all_eq_true.mp hall v (List.mem_cons_self v vs)
          simp only [beq_iff_eq] at this
          omega
        rw [get_entity, hlk, except_bind_ok, hls, except_bind_ok]
        simp only [ite_self, List.map_cons, DataFrame.fromRows,
          DataFrame.setColumns, List.isEmpty_cons, Bool.not_false, if_true,
          List.headD_cons, List.length_append, List.length_cons,
          List.length_nil, dedupe_length, hlen0, hv1, except_bind_ok,
          except_pure, except_map_ok]
        obtain ⟨s2, hs2⟩ := setIndexSelect_ok (dedupeLabels (setOnsetNames t))
          name _ hcols2.1 hcols2.2
        rw [hs2, except_bind_ok]
        exact ⟨s2, rfl⟩
  | .obj d dim idx items =>
    simp only [wfEntity, Bool.and_eq_true] at hwf
    have hdim : 0 < dim := by simpa [entityFits] using hfit
    rw [if_pos hdim] at hwf
    match idx with
    | none => exact absurd hwf.1 (by simp)
    | some t =>
      rw [Bool.and_eq_true, beq_iff_eq] at hwf
      obtain ⟨⟨hwft, htdim⟩, hall⟩ := hwf
      have hcols2 : (dedupeLabels (setOnsetNames t)).Nodup ∧
          name ∉ dedupeLabels (setOnsetNames t) := by
        simpa [columnsOk, indexLabels, hdim] using hcols
      have hlen0 : (setOnsetNames t).length = dim := by
        rw [setOnsetNames_length_wf t hwft, htdim]
      have hls : _get_onset_names (.obj d dim (some t) items)
          = .ok (setOnsetNames t) := by
        simp [_get_onset_names, hdim]
      match items with
      | [] => simp [entityIsEmpty] at hnonempty
      | v :: vs =>
        have hv1 : v.1.length = dim := by
          have := List.all_eq_true.mp hall v (List.mem_cons_self v vs)
          simp only [beq_iff_eq] at this
          omega
        rw [get_entity, hlk, except_bind_ok, hls, except_bind_ok]
        simp only [ite_self, List.map_cons, DataFrame.fromRows,
          DataFrame.setColumns, List.isEmpty_cons, Bool.not_false, if_true,
          List.headD_cons, List.length_append, List.length_cons,
          List.length_nil, dedupe_length, hlen0, hv1, except_bind_ok,
          except_pure, except_map_ok]
        obtain ⟨s2, hs2⟩ := setIndexSelect_ok (dedupeLabels (setOnsetNames t))
          name _ hcols2.1 hcols2.2
        rw [hs2, except_bind_ok]
        exact ⟨s2, rfl⟩

/-- Witness for the amended C10 at the nonempty `capacity` parameter. -/
theorem c10_result_type_by_emptiness_witness :
    wfEntity (.param none 1 (some plantsSet)
      [([.str "Seattle"], 350), ([.str "San-Diego"], 600)]) = true ∧
    columnsOk "capacity" (.param none 1 (some plantsSet)
      [([.str "Seattle"], 350), ([.str "San-Diego"], 600)]) = true ∧
    entityIsEmpty (.param none 1 (some plantsSet)
      [([.str "Seattle"], 350), ([.str "San-Diego"], 600)]) = false ∧
    ∃ s, get_entity transpInst "capacity" = .ok (.series s) :=
  ⟨by decide, by decide, by decide,
   (c10_result_type_by_emptiness transpInst "capacity"
      (.param none 1 (some plantsSet)
        [([.str "Seattle"], 350), ([.str "San-Diego"], 600)])
      (by rfl) (by decide) (by decide) (by decide)).1 (by decide)⟩
